import Mathlib

/-!
Verification development for the file-mover repository: a shallow embedding of
the import-reference resolution and rewrite engine (pathUtils.ts, importUtils.ts,
types.ts, fileOps, and the batch orchestrator), together with theorems settling
the specification claims about it.

Paths are modelled with Node.js POSIX `path` semantics (the repository
normalizes every path to forward slashes).  Functions that can throw in the
TypeScript source return `Option`/`Except` here, with `none`/`error` standing
for a thrown exception.  External collaborators (the Babel parser, the file
system, glob search) are modelled as explicit parameters or oracles; every
algorithmic definition is translated from the repository source.
-/

/-- Characters used for quote delimiters in import statements. -/
def sqChar : Char := Char.ofNat 39

def dqChar : Char := Char.ofNat 34

def bqChar : Char := Char.ofNat 96

def sqStr : String := String.mk [sqChar]

/-- Wrap a string in single quotes, as import literals appear in source text. -/
def quoted (s : String) : String := sqStr ++ s ++ sqStr

/-! ## String primitives (kernel-computable forms of the JS operations) -/

/-- JavaScript `String.startsWith`. -/
def strStartsWith (s pre : String) : Bool := pre.data.isPrefixOf s.data

/-- JavaScript `String.endsWith`. -/
def strEndsWith (s post : String) : Bool := post.data.isSuffixOf s.data

def splitSlashGo (cur : List Char) : List Char → List (List Char)
  | [] => [cur.reverse]
  | c :: rest =>
    if c = '/' then cur.reverse :: splitSlashGo [] rest
    else splitSlashGo (c :: cur) rest

/-- `String.split("/")`. -/
def strSplitSlash (s : String) : List String :=
  (splitSlashGo [] s.data).map String.mk

/-! ## Node.js POSIX path model -/

/-- Split a path string into its slash-separated segments, dropping empty
segments (leading slash, duplicate slashes). -/
def pathSegments (p : String) : List String :=
  (strSplitSlash p).filter (fun s => s ≠ "")

/-- One step of POSIX normalization: push a segment onto the processed stack,
resolving `..` against it (`abs` tells whether the whole path is absolute). -/
def normStep (abs : Bool) (st : List String) (seg : String) : List String :=
  if seg = ".." then
    match st with
    | [] => if abs then [] else [".."]
    | top :: rest => if top = ".." then seg :: st else rest
  else seg :: st

/-- Node `path.posix.normalize`: collapse `.`/`..`/duplicate separators,
keeping a trailing separator when the input had one. -/
def posixNormalize (p : String) : String :=
  if p = "" then "." else
  let abs := strStartsWith p "/"
  let trail := strEndsWith p "/"
  let segs := (pathSegments p).filter (fun s => s ≠ ".")
  let stack := segs.foldl (normStep abs) []
  let body := String.intercalate "/" stack.reverse
  let base := if abs then "/" ++ body else if body = "" then "." else body
  if trail ∧ ¬ strEndsWith base "/" then base ++ "/" else base

/-- Remove trailing slash characters from a character list. -/
def stripTrailSlashes (cs : List Char) : List Char :=
  ((cs.reverse).dropWhile (fun c => c = '/')).reverse

/-- Node `path.posix.dirname`. -/
def posixDirname (p : String) : String :=
  let cs := stripTrailSlashes p.data
  if cs = [] then (if strStartsWith p "/" then "/" else ".") else
  match (cs.reverse).dropWhile (fun c => c ≠ '/') with
  | [] => "."
  | _ :: rest =>
    let d := stripTrailSlashes rest.reverse
    if d = [] then (if strStartsWith p "/" then "/" else ".") else String.mk d

/-- Node `path.posix.basename` (one-argument form). -/
def posixBasename (p : String) : String :=
  let cs := stripTrailSlashes p.data
  String.mk (((cs.reverse).takeWhile (fun c => c ≠ '/')).reverse)

/-- Node `path.posix.basename(p, ext)`: additionally drops a trailing `ext`
when it is a proper suffix of the base name. -/
def posixBasenameExt (p ext : String) : String :=
  let b := posixBasename p
  if ext ≠ "" ∧ strEndsWith b ext ∧ b ≠ ext then
    String.mk (b.data.take (b.length - ext.length))
  else b

/-- Node `path.posix.extname`: the suffix of the base name from its last dot,
empty when there is no dot or the only dot is leading. -/
def posixExtname (p : String) : String :=
  let b := (posixBasename p).data
  let tail := (b.reverse).takeWhile (fun c => c ≠ '.')
  if tail.length = b.length then ""
  else if b.length - tail.length - 1 = 0 then ""
  else String.mk ('.' :: tail.reverse)

/-- Node `path.posix.join` on two parts: empty parts are skipped and the
concatenation is normalized. -/
def posixJoin2 (a b : String) : String :=
  let joinedParts := ([a, b].filter (fun s => s ≠ ""))
  let joined := String.intercalate "/" joinedParts
  if joined = "" then "." else posixNormalize joined

/-- The working directory of the modelled process.  Node resolves relative
paths against `process.cwd()`; the embedding fixes it to a constant. -/
def processCwd : String := "/w"

/-- Node `path.posix.resolve` with a single path argument: resolve against the
working directory and drop a trailing separator. -/
def posixResolveIn (cwd p : String) : String :=
  let r := if strStartsWith p "/" then posixNormalize p
           else posixNormalize (cwd ++ "/" ++ p)
  if r.length > 1 ∧ strEndsWith r "/" then String.mk (stripTrailSlashes r.data) else r

/-- Node `path.posix.resolve(a, b)`: right-to-left resolution of the two
arguments against the working directory. -/
def posixResolve2In (cwd a b : String) : String :=
  if strStartsWith b "/" then posixResolveIn cwd b
  else if strStartsWith a "/" then posixResolveIn "/" (a ++ "/" ++ b)
  else posixResolveIn cwd (a ++ "/" ++ b)

/-- Length of the common segment-list prefix of two paths. -/
def commonSegCount : List String → List String → Nat
  | a :: as_, b :: bs => if a = b then commonSegCount as_ bs + 1 else 0
  | _, _ => 0

/-- Node `path.posix.relative(from, to)` resolved in working directory `cwd`. -/
def posixRelativeIn (cwd fromP toP : String) : String :=
  let f := posixResolveIn cwd fromP
  let t := posixResolveIn cwd toP
  if f = t then "" else
  let fs := pathSegments f
  let ts := pathSegments t
  let k := commonSegCount fs ts
  String.intercalate "/" (List.replicate (fs.length - k) ".." ++ ts.drop k)

/-! ## pathUtils.ts -/

/-- `normalizePath` (pathUtils.ts): `path.normalize` then replace every
backslash with a forward slash. -/
def normalizePath (filePath : String) : String :=
  String.mk ((posixNormalize filePath).data.map
    (fun c => if c = '\\' then '/' else c))

/-- `removeExtension` (pathUtils.ts): `path.join(parsed.dir, parsed.name)`
where `parsed = path.parse(filePath)`.  `parsed.dir` is like `dirname` but
empty for a bare file name; `parsed.name` is the base name without extension. -/
def parseDir (p : String) : String :=
  let cs := stripTrailSlashes p.data
  match (cs.reverse).dropWhile (fun c => c ≠ '/') with
  | [] => ""
  | _ :: rest =>
    let d := stripTrailSlashes rest.reverse
    if d = [] then (if strStartsWith p "/" then "/" else "") else String.mk d

def parseName (p : String) : String :=
  let b := posixBasename p
  let e := posixExtname p
  if e ≠ "" ∧ strEndsWith b e then String.mk (b.data.take (b.length - e.length)) else b

def removeExtension (filePath : String) : String :=
  posixJoin2 (parseDir filePath) (parseName filePath)

/-- `isRelativeImport` (importUtils.ts). -/
def isRelativeImport (importPath : String) : Bool :=
  strStartsWith importPath "./" || strStartsWith importPath "../"

/-- `isMonorepoPackageImport` (importUtils.ts). -/
def isMonorepoPackageImport (importPath : String) : Bool :=
  strStartsWith importPath "@ms/"

/-- After a recognized root marker, parse `([^\/]+)\/src\/(.*)`. -/
def matchPkgSrcAfter (marker cs : List Char) : Option (List Char × List Char) :=
  if marker.isPrefixOf cs then
    let afterRoot := cs.drop marker.length
    let name := afterRoot.takeWhile (fun c => c ≠ '/')
    let rest := afterRoot.dropWhile (fun c => c ≠ '/')
    if name ≠ [] ∧ "/src/".data.isPrefixOf rest then
      some (name, rest.drop 5)
    else none
  else none

/-- Try the `(?:packages|apps)\/([^\/]+)\/src\/(.*)` pattern at this exact
position (the `packages` alternative first, as in the regex). -/
def matchPkgSrcHere (cs : List Char) : Option (List Char × List Char) :=
  match matchPkgSrcAfter "packages/".data cs with
  | some r => some r
  | none => matchPkgSrcAfter "apps/".data cs

/-- Leftmost match of the regex `(?:packages|apps)\/([^\/]+)\/src\/(.*)$`:
returns the module name (group 1) and the remaining subpath (group 2). -/
def matchPkgSrc : List Char → Option (List Char × List Char)
  | [] => none
  | c :: rest =>
    match matchPkgSrcHere (c :: rest) with
    | some r => some r
    | none => matchPkgSrc rest

/-- The regex replace `\.[^\/.]+$` → `""`: strip one trailing dot-extension
whose characters contain neither `/` nor `.`. -/
def stripDotExt (s : String) : String :=
  let r := s.data.reverse
  let tail := r.takeWhile (fun c => c ≠ '.' ∧ c ≠ '/')
  if tail ≠ [] ∧ (r.drop tail.length).headD ' ' = '.' then
    String.mk ((r.drop (tail.length + 1)).reverse)
  else s

/-- `getMsImportPath` (pathUtils.ts).  `none` models the thrown
`getMsImportPath not found` error when the module-root regex fails. -/
def getMsImportPath (filePath : String) : Option String :=
  let normalized := normalizePath filePath
  match matchPkgSrc normalized.data with
  | some (pkg, sub) =>
    some ("@ms/" ++ String.mk pkg ++ "/lib/" ++ stripDotExt (String.mk sub))
  | none => none

/-- `resolveImportPath` (pathUtils.ts). -/
def resolveImportPath (currentFile importPath : String) : String :=
  if isRelativeImport importPath then
    posixResolve2In processCwd (posixDirname currentFile) importPath
  else normalizePath importPath

/-- Leftmost match of `@ms\/([^\/]+)`: the package segment after `@ms/`. -/
def matchAtMs : List Char → Option (List Char)
  | [] => none
  | c :: rest =>
    if "@ms/".data.isPrefixOf (c :: rest) then
      let name := ((c :: rest).drop 4).takeWhile (fun ch => ch ≠ '/')
      if name ≠ [] then some name else matchAtMs rest
    else matchAtMs rest

/-- Leftmost match of `(?:packages|apps)\/([^\/]+)`: the whole matched text
(root marker plus module segment). -/
def matchPkgShortAfter (marker cs : List Char) : Option String :=
  if marker.isPrefixOf cs then
    let name := (cs.drop marker.length).takeWhile (fun c => c ≠ '/')
    if name ≠ [] then some (String.mk (marker ++ name)) else none
  else none

def matchPkgShortHere (cs : List Char) : Option String :=
  match matchPkgShortAfter "packages/".data cs with
  | some r => some r
  | none => matchPkgShortAfter "apps/".data cs

def matchPkgShort : List Char → Option String
  | [] => none
  | c :: rest =>
    match matchPkgShortHere (c :: rest) with
    | some r => some r
    | none => matchPkgShort rest

structure ModuleTypeResult where
  moduleType : String
  moduleName : String
deriving DecidableEq, Repr

/-- `getModuleType` (pathUtils.ts).  `none` models the thrown
`Could not determine package name` error. -/
def getModuleType (importPath : String) : Option ModuleTypeResult :=
  let normalized := normalizePath importPath
  let packageName : Option String :=
    if isMonorepoPackageImport normalized then
      match matchAtMs normalized.data with
      | some name => some ("packages/" ++ String.mk name)
      | none => some "packages/undefined"
    else matchPkgShort normalized.data
  match packageName with
  | none => none
  | some pn =>
    some { moduleType := pn, moduleName := ((strSplitSlash pn).drop 1).headD "" }

/-- `String.indexOf("packages")`: index of the leftmost occurrence. -/
def findPackagesIndex (cs : List Char) : Option Nat :=
  match cs with
  | [] => none
  | _ :: rest =>
    if "packages".data.isPrefixOf cs then some 0
    else (findPackagesIndex rest).map (fun i => i + 1)

/-- `handleMonoRepoImportPathToAbsolutePath` (pathUtils.ts).  `none` models the
thrown `Could not find packages directory` error. -/
def handleMonoRepoImportPathToAbsolutePath (directory importPath : String) :
    Option String :=
  if ¬ isMonorepoPackageImport importPath then some importPath else
  let parts := strSplitSlash importPath
  let packageName := (parts.drop 1).headD ""
  let pathParts := parts.drop 2
  let joinedParts := String.intercalate "/" pathParts
  let srcPath :=
    if strStartsWith joinedParts "lib" then
      "src" ++ String.mk (joinedParts.data.drop 3)
    else joinedParts
  let currentDir := posixDirname directory
  match findPackagesIndex currentDir.data with
  | none => none
  | some i =>
    let packagesDir := String.mk (currentDir.data.take (i + 8))
    some (normalizePath (posixJoin2 (posixJoin2 packagesDir packageName) srcPath))

/-! ## importUtils.ts: shared helpers -/

/-- `getRelativeImportPath` (importUtils.ts): the relative path from the
referencing file's directory to the target file, extension stripped for
`.ts`/`.tsx`, with a `./` form when the directories coincide. -/
def getRelativeImportPath (fromFile toFile : String) : String :=
  let relativePath0 :=
    normalizePath (posixRelativeIn processCwd (posixDirname fromFile) (posixDirname toFile))
  let relativePath := if relativePath0 = "" then "." else relativePath0
  let ext := posixExtname toFile
  let fileName :=
    if ext = ".ts" ∨ ext = ".tsx" then posixBasenameExt toFile ext
    else posixBasename toFile
  if relativePath = "." then "./" ++ fileName else relativePath ++ "/" ++ fileName

/-- `FileDirection` (types.ts). -/
inductive FileDirection
  | self
  | betweenPackages
  | packageToApp
  | unknown
deriving DecidableEq, Repr

/-- `fileMoveDirection` (types.ts / importUtils.ts): classify a pair of paths;
`none` models the exception propagated out of `getModuleType`. -/
def fileMoveDirection (oldPath newPath : String) : Option FileDirection :=
  match getModuleType oldPath with
  | none => none
  | some o =>
    match getModuleType newPath with
    | none => none
    | some n =>
      if o.moduleType = n.moduleType ∧ o.moduleName = n.moduleName then
        some FileDirection.self
      else if o.moduleType = "packages" ∧ n.moduleType = "apps" then
        some FileDirection.unknown
      else some FileDirection.betweenPackages

/-! ## JavaScript `Map` model (association list with unique keys) -/

def mapLookup (m : List (String × String)) (k : String) : Option String :=
  (m.find? (fun e => e.1 = k)).map (fun e => e.2)

def mapHas (m : List (String × String)) (k : String) : Bool :=
  (mapLookup m k).isSome

/-- `Map.set`: overwrite in place when the key exists, otherwise append. -/
def mapSet (m : List (String × String)) (k v : String) : List (String × String) :=
  if mapHas m k then m.map (fun e => if e.1 = k then (k, v) else e) else m ++ [(k, v)]

/-- `Map.delete`. -/
def mapDelete (m : List (String × String)) (k : String) : List (String × String) :=
  m.filter (fun e => e.1 ≠ k)

/-- `new Map(entries)`: later entries override earlier ones. -/
def mapOfEntries (entries : List (String × String)) : List (String × String) :=
  entries.foldl (fun m e => mapSet m e.1 e.2) []

/-! ## Regex substitution machinery

`createImportStatementRegexPatterns` builds concrete regular expressions whose
literal part is regex-escaped, so each pattern family denotes a fixed string
language; the embedding implements `RegExp.test` and global
`String.replace` for exactly these families by deterministic scanning (for
each family the greedy quantifiers admit a single parse at a match position).
-/

/-- JavaScript `\s` on the character set used in source files. -/
def isWsChar (c : Char) : Bool :=
  c = ' ' ∨ c = '\t' ∨ c = '\n' ∨ c = '\r' ∨ c = Char.ofNat 11 ∨ c = Char.ofNat 12

/-- The three quote delimiters `['"\x60]` accepted by the patterns. -/
def isQuoteChar (c : Char) : Bool :=
  c = sqChar ∨ c = dqChar ∨ c = bqChar

/-- Match `(['"\x60])lit\1` at the head of `cs`: returns the captured quote
and the number of characters consumed. -/
def matchQuotedAt (lit cs : List Char) : Option (Char × Nat) :=
  match cs with
  | [] => none
  | q :: rest =>
    if isQuoteChar q then
      if lit.isPrefixOf rest then
        match rest.drop lit.length with
        | q2 :: _ => if q2 = q then some (q, lit.length + 2) else none
        | [] => none
      else none
    else none

/-- Match `from\s+(['"\x60])lit\1` at the head of `cs`. -/
def matchFromAt (lit cs : List Char) : Option (Char × Nat) :=
  if "from".data.isPrefixOf cs then
    let afterKeyword := cs.drop 4
    let wsRun := afterKeyword.takeWhile isWsChar
    if wsRun = [] then none else
    match matchQuotedAt lit (afterKeyword.drop wsRun.length) with
    | some (q, n) => some (q, 4 + wsRun.length + n)
    | none => none
  else none

/-- Match `opener\s*(['"\x60])lit\1\s*closer` at the head of `cs` (used for
the `import(`, `require(`, `jest.mock(` and `jest.requireMock(` patterns). -/
def matchCallAt (opener : List Char) (closer : Char) (lit cs : List Char) :
    Option (Char × Nat) :=
  if opener.isPrefixOf cs then
    let afterOpen := cs.drop opener.length
    let ws1 := afterOpen.takeWhile isWsChar
    match matchQuotedAt lit (afterOpen.drop ws1.length) with
    | some (q, n) =>
      let afterQuoted := (afterOpen.drop ws1.length).drop n
      let ws2 := afterQuoted.takeWhile isWsChar
      match afterQuoted.drop ws2.length with
      | c :: _ =>
        if c = closer then some (q, opener.length + ws1.length + n + ws2.length + 1)
        else none
      | [] => none
    | none => none
  else none

/-- `RegExp.test` for a scanning matcher: does the pattern match anywhere? -/
def scanTest (m : List Char → Option (Char × Nat)) : List Char → Bool
  | [] => (m []).isSome
  | c :: rest => (m (c :: rest)).isSome || scanTest m rest

/-- Global `String.replace` for a scanning matcher: fuelled left-to-right scan
replacing each non-overlapping match (every matcher consumes at least one
character, so fuel equal to the input length is exact). -/
def scanReplace (m : List Char → Option (Char × Nat)) (repl : Char → List Char) :
    Nat → List Char → List Char
  | 0, cs => cs
  | _ + 1, [] => []
  | fuel + 1, c :: rest =>
    match m (c :: rest) with
    | some (q, n) => repl q ++ scanReplace m repl fuel ((c :: rest).drop n)
    | none => c :: scanReplace m repl fuel rest

def replaceAll (m : List Char → Option (Char × Nat)) (repl : Char → List Char)
    (cs : List Char) : List Char :=
  scanReplace m repl cs.length cs

/-- `setFileContentIfRegexMatches` (types.ts / importUtils.ts) specialized to a
scanning matcher: `null` when the pattern does not match. -/
def setFileContentIfRegexMatches (m : List Char → Option (Char × Nat))
    (repl : Char → List Char) (fileContent : String) : Option String :=
  if scanTest m fileContent.data then
    some (String.mk (replaceAll m repl fileContent.data))
  else none

/-- JavaScript `\w`. -/
def isWordChar (c : Char) : Bool := c.isAlphanum ∨ c = '_'

/-- A `\b` word boundary between an optional previous character and a next
character class. -/
def boundaryBetween (a b : Bool) : Bool := a ≠ b

/-- Match `\bword\b` at the head of `cs`, given the character preceding `cs`
in the full text (`none` at the start of the text).  `word` is assumed
non-empty (the patterns are built from non-empty base names). -/
def matchWordAt (word : List Char) (prev : Option Char) (cs : List Char) : Bool :=
  match word with
  | [] => false
  | w0 :: _ =>
    let prevIsWord := match prev with | none => false | some p => isWordChar p
    let nextIsWord := match cs.drop word.length with | [] => false | c :: _ => isWordChar c
    word.isPrefixOf cs ∧ boundaryBetween prevIsWord (isWordChar w0) ∧
      boundaryBetween (isWordChar (word.getLastD w0)) nextIsWord

def scanWordTest (word : List Char) : Option Char → List Char → Bool
  | _, [] => false
  | prev, c :: rest => matchWordAt word prev (c :: rest) || scanWordTest word (some c) rest

/-- Global replace for `\bword\b` (the replacement carries no group). -/
def scanWordReplace (word repl : List Char) : Option Char → Nat → List Char → List Char
  | _, 0, cs => cs
  | _, _ + 1, [] => []
  | prev, fuel + 1, c :: rest =>
    if matchWordAt word prev (c :: rest) then
      repl ++ scanWordReplace word repl (some (word.getLastD c)) fuel ((c :: rest).drop word.length)
    else c :: scanWordReplace word repl (some c) fuel rest

def setFileContentIfWordMatches (word repl : List Char) (fileContent : String) :
    Option String :=
  if scanWordTest word none fileContent.data then
    some (String.mk (scanWordReplace word repl none fileContent.data.length fileContent.data))
  else none

structure UpdateResult where
  updated : Bool
  updatedFileContent : String
  updatedImportPath : String
deriving DecidableEq, Repr

/-! ## importUtils.ts variant (quoted / word-boundary substitution)

`createImportStatementRegexPatterns` in this file builds
`(['"\x60])lit\1` (quoted) and `\bname\b` (unquoted, from the base name of
the literal without extension); substitution tries the quoted pattern first.
-/

namespace ImportUtils

/-- The word used by the `unquotedPattern`:
`path.basename(importPath, path.extname(importPath))`. -/
def patternWord (importPath : String) : List Char :=
  (posixBasenameExt importPath (posixExtname importPath)).data

/-- The substitution step shared by both update functions in importUtils.ts:
quoted pattern first, word-boundary pattern as fallback. -/
def applyPatterns (importPath updatedImportPath fileContent : String) : Option String :=
  match setFileContentIfRegexMatches (matchQuotedAt importPath.data)
      (fun q => q :: updatedImportPath.data ++ [q]) fileContent with
  | some s => some s
  | none =>
    setFileContentIfWordMatches (patternWord importPath) updatedImportPath.data fileContent

/-- `handlePackageImportsUpdate` (importUtils.ts, quoted/unquoted variant):
rewrite one reference in a candidate file for the move of
`targetFileMoveToNewPath`.  `none` models a propagated exception. -/
def handlePackageImportsUpdate (currentImportPath currentFilePath
    targetFileMoveToNewPath fileContent : String) : Option UpdateResult :=
  match fileMoveDirection currentFilePath targetFileMoveToNewPath with
  | none => none
  | some fileDirection =>
    let newRelativePath0 := getRelativeImportPath currentFilePath targetFileMoveToNewPath
    let newRelativePath :=
      if ¬ strStartsWith newRelativePath0 "../" ∧ ¬ strStartsWith newRelativePath0 "./" then
        "./" ++ newRelativePath0
      else newRelativePath0
    let updatedImportPath? : Option (Option String) :=
      match fileDirection with
      | FileDirection.self =>
        if isMonorepoPackageImport currentImportPath then
          match handleMonoRepoImportPathToAbsolutePath currentFilePath
              targetFileMoveToNewPath with
          | none => none
          | some abs => some (some (getRelativeImportPath currentFilePath abs))
        else some (some newRelativePath)
      | FileDirection.betweenPackages =>
        if isMonorepoPackageImport targetFileMoveToNewPath then
          some (some currentImportPath)
        else
          match getMsImportPath targetFileMoveToNewPath with
          | none => none
          | some ms => some (some ms)
      | _ => some none
    match updatedImportPath? with
    | none => none
    | some none =>
      some { updated := false, updatedFileContent := fileContent, updatedImportPath := "" }
    | some (some updatedImportPath) =>
      let updatedContent := applyPatterns currentImportPath updatedImportPath fileContent
      some { updated := updatedContent.isSome,
             updatedFileContent := updatedContent.getD fileContent,
             updatedImportPath := updatedImportPath }

/-- `handleMovingFileImportsUpdate` (importUtils.ts): rewrite one of the moved
file's own references, consulting the batch `fileMoveMap`. -/
def handleMovingFileImportsUpdate (fileMoveMap : List (String × String))
    (importPath originalMovedFilePath newMovedFilePath fileContent : String) :
    Option UpdateResult :=
  let targetImportFileAbsPath :=
    posixResolve2In processCwd (posixDirname originalMovedFilePath) importPath
  let importFilePath :=
    if mapHas fileMoveMap targetImportFileAbsPath then
      match mapLookup fileMoveMap targetImportFileAbsPath with
      | some v => if v = "" then targetImportFileAbsPath else v
      | none => targetImportFileAbsPath
    else if isRelativeImport importPath then targetImportFileAbsPath
    else importPath
  match fileMoveDirection newMovedFilePath importFilePath with
  | none => none
  | some fileDirection =>
    let newRelativePath0 := getRelativeImportPath newMovedFilePath importFilePath
    let newRelativePath :=
      if ¬ strStartsWith newRelativePath0 "../" ∧ ¬ strStartsWith newRelativePath0 "./" then
        "./" ++ newRelativePath0
      else newRelativePath0
    let updatedImportPath? : Option (Option String) :=
      match fileDirection with
      | FileDirection.self =>
        if isMonorepoPackageImport importPath then
          match handleMonoRepoImportPathToAbsolutePath newMovedFilePath importFilePath with
          | none => none
          | some abs => some (some (getRelativeImportPath newMovedFilePath abs))
        else some (some newRelativePath)
      | FileDirection.betweenPackages =>
        if isMonorepoPackageImport importPath then some (some importPath)
        else
          match getMsImportPath importPath with
          | none => none
          | some ms => some (some ms)
      | _ => some none
    match updatedImportPath? with
    | none => none
    | some none =>
      some { updated := false, updatedFileContent := fileContent, updatedImportPath := "" }
    | some (some updatedImportPath) =>
      let updatedContent := applyPatterns importPath updatedImportPath fileContent
      some { updated := updatedContent.isSome,
             updatedFileContent := updatedContent.getD fileContent,
             updatedImportPath := updatedImportPath }

end ImportUtils

/-! ## types.ts variant (per-statement patterns, inverted index) -/

namespace Types

/-- `applyImportPathReplacements` (types.ts): try the five statement patterns
in order, applying only the first one that matches (`??` chain). -/
def applyImportPathReplacements (importPath updatedImportPath fileContent : String) :
    Option String :=
  let lit := importPath.data
  let new := updatedImportPath.data
  match setFileContentIfRegexMatches (matchFromAt lit)
      (fun q => "from ".data ++ q :: new ++ [q]) fileContent with
  | some s => some s
  | none =>
  match setFileContentIfRegexMatches (matchCallAt "import(".data ')' lit)
      (fun q => "import(".data ++ q :: new ++ [q, ')']) fileContent with
  | some s => some s
  | none =>
  match setFileContentIfRegexMatches (matchCallAt "require(".data ')' lit)
      (fun q => "require(".data ++ q :: new ++ [q, ')']) fileContent with
  | some s => some s
  | none =>
  match setFileContentIfRegexMatches (matchCallAt "jest.mock(".data ',' lit)
      (fun q => "jest.mock(".data ++ q :: new ++ [q, ',']) fileContent with
  | some s => some s
  | none =>
    setFileContentIfRegexMatches (matchCallAt "jest.requireMock(".data ')' lit)
      (fun q => "jest.requireMock(".data ++ q :: new ++ [q, ')']) fileContent

/-- `handlePackageImportsUpdate` (types.ts): rewrite one reference in a
candidate file for the move of `newPath`.  `none` models a propagated
exception. -/
def handlePackageImportsUpdate (currentImportPath currentFilePath newPath
    fileContent : String) : Option UpdateResult :=
  match fileMoveDirection currentFilePath newPath with
  | none => none
  | some fileDirection =>
    let newRelativePath0 := getRelativeImportPath currentFilePath newPath
    let newRelativePath :=
      if ¬ strStartsWith newRelativePath0 "../" ∧ ¬ strStartsWith newRelativePath0 "./" then
        "./" ++ newRelativePath0
      else newRelativePath0
    let updatedImportPath? : Option (Option String) :=
      match fileDirection with
      | FileDirection.self =>
        if isMonorepoPackageImport currentImportPath then
          match handleMonoRepoImportPathToAbsolutePath currentFilePath newPath with
          | none => none
          | some abs => some (some (getRelativeImportPath currentFilePath abs))
        else some (some newRelativePath)
      | FileDirection.betweenPackages =>
        if isMonorepoPackageImport newPath then some (some currentImportPath)
        else
          match getMsImportPath newPath with
          | none => none
          | some ms => some (some ms)
      | _ => some none
    match updatedImportPath? with
    | none => none
    | some none =>
      some { updated := false, updatedFileContent := fileContent, updatedImportPath := "" }
    | some (some updatedImportPath) =>
      let updatedContent :=
        applyImportPathReplacements currentImportPath updatedImportPath fileContent
      some { updated := updatedContent.isSome,
             updatedFileContent := updatedContent.getD fileContent,
             updatedImportPath := updatedImportPath }

/-- `matchesTarget` (types.ts, inverted-index variant): resolve a scanned
literal to the new path of the moved file it references, or `none` when it
references no moved file (import-hit telemetry is omitted). -/
def matchesTarget (fileMoveMap targetImportPaths : List (String × String))
    (currentFile importPath : String) : Option String :=
  if mapHas targetImportPaths importPath then
    let key := (mapLookup targetImportPaths importPath).getD ""
    match mapLookup fileMoveMap key with
    | some np => if np = "" then none else some np
    | none => none
  else
    let resolvedPath := normalizePath (resolveImportPath currentFile importPath)
    if mapHas targetImportPaths resolvedPath then
      let key := (mapLookup targetImportPaths resolvedPath).getD ""
      match mapLookup fileMoveMap key with
      | some np => if np = "" then none else some np
      | none => none
    else none

end Types

/-! ## Address Form Generator (`generateImportPathVariations`, importUtils.ts) -/

/-- JS `Set` insertion: append when not already present. -/
def addUnique (l : List String) (x : String) : List String :=
  if l.contains x then l else l ++ [x]

/-- The regex replace `\/index$` → `""`. -/
def stripIndexSuffix (s : String) : String :=
  if strEndsWith s "/index" then String.mk (s.data.take (s.length - 6)) else s

/-- The `addPathVariations` helper closed over the index-file flag. -/
def addPathVariations (isIndexFileFlag : Bool) (paths : List String)
    (basePath : String) : List String :=
  let withoutExt := removeExtension basePath
  let p1 := addUnique paths (normalizePath basePath)
  let p2 := addUnique p1 (normalizePath withoutExt)
  if isIndexFileFlag then
    let dirPath := posixDirname basePath
    let dirPathWithoutExt := removeExtension dirPath
    addUnique (addUnique p2 (normalizePath dirPath)) (normalizePath dirPathWithoutExt)
  else p2

/-- `generateImportPathVariations` (importUtils.ts): every string form that an
importing statement could use to address `targetPath`.  `none` models the
exception propagated out of `getMsImportPath`. -/
def generateImportPathVariations (targetPath cfgCwd : String) :
    Option (List String) :=
  let normalized := posixResolveIn processCwd targetPath
  let fileName := posixBasename normalized
  let fileNameWithoutExt := posixBasenameExt normalized (posixExtname normalized)
  let isIndexFileFlag :=
    fileName = "index.ts" ∨ fileName = "index.tsx" ∨ fileName = "index.js" ∨
      fileName = "index.jsx" ∨ fileNameWithoutExt = "index"
  let paths0 := addPathVariations isIndexFileFlag [] normalized
  match getMsImportPath normalized with
  | none => none
  | some msImportPath =>
    let paths1 := addUnique paths0 msImportPath
    let paths2 :=
      if isIndexFileFlag then
        let msDirPath := stripIndexSuffix msImportPath
        if msDirPath ≠ msImportPath then addUnique paths1 msDirPath else paths1
      else paths1
    let relativeToCwd := posixRelativeIn processCwd cfgCwd normalized
    some (addPathVariations isIndexFileFlag paths2 relativeToCwd)

/-! ## File operations and cache (fileOps / part of the batch pipeline)

The file system is modelled as a finite map from absolute path to content; the
raw-content cache (`fileContentCache`) is a second map.  Only successful
writes and renames are recorded in the effect trace.  The Babel scanner is an
external collaborator and enters as an oracle function from file content to
the scanned import literals.
-/

structure ImportInfo where
  line : Nat
  originalLine : String
  importPath : String
  matchedText : String
  matchedUpdateToFilePath : String
deriving DecidableEq, Repr

structure SysState where
  files : List (String × String)
  cache : List (String × String)
deriving DecidableEq, Repr

inductive Effect
  | write (path content : String)
  | rename (fromPath toPath : String)
deriving DecidableEq, Repr

def isRenameEffect : Effect → Bool
  | Effect.rename _ _ => true
  | _ => false

/-- `movePhysicalFile` (fileOps): rename on disk, then migrate the cache entry
from the old to the new path when a (truthy, i.e. non-empty) cached content
exists.  `none` models the rejected `fs.rename` when the source is absent. -/
def movePhysicalFile (oldPath newPath : String) (st : SysState) :
    Option (SysState × List Effect) :=
  match mapLookup st.files oldPath with
  | none => none
  | some content =>
    let files1 := mapSet (mapDelete st.files oldPath) newPath content
    let cache1 :=
      match mapLookup st.cache oldPath with
      | some c =>
        if c ≠ "" then mapDelete (mapSet st.cache newPath c) oldPath else st.cache
      | none => st.cache
    some ({ files := files1, cache := cache1 }, [Effect.rename oldPath newPath])

/-- `readFileWithValidation` (fileOps): redirect through the batch
`fileMoveMap`, fail when the file is absent, serve a (truthy) cached content,
otherwise read from disk and populate the cache.  `none` models a thrown
error. -/
def readFileWithValidation (fileMoveMap : List (String × String)) (st : SysState)
    (filePath : String) : Option (String × SysState) :=
  let currentFilePath :=
    if mapHas fileMoveMap filePath then
      match mapLookup fileMoveMap filePath with
      | some latestPath => if latestPath ≠ "" then latestPath else filePath
      | none => filePath
    else filePath
  if ¬ mapHas st.files currentFilePath then none
  else
    match mapLookup st.cache currentFilePath with
    | some cachedContent =>
      if cachedContent ≠ "" then some (cachedContent, st)
      else
        match mapLookup st.files currentFilePath with
        | some content =>
          some (content, { st with cache := mapSet st.cache currentFilePath content })
        | none => none
    | none =>
      match mapLookup st.files currentFilePath with
      | some content =>
        some (content, { st with cache := mapSet st.cache currentFilePath content })
      | none => none

/-- The rewrite loop of `updateImportsInFile`: thread the in-memory content
through `handlePackageImportsUpdate` for every scanned reference.  `none`
models an exception thrown by an iteration. -/
def updateImportsLoop (currentFilePath : String) :
    String → Bool → List ImportInfo → Option (Bool × String)
  | fileContent, hasChanges, [] => some (hasChanges, fileContent)
  | fileContent, hasChanges, importInfo :: rest =>
    match Types.handlePackageImportsUpdate importInfo.importPath currentFilePath
        importInfo.matchedUpdateToFilePath fileContent with
    | none => none
    | some r =>
      updateImportsLoop currentFilePath
        (if r.updated then r.updatedFileContent else fileContent)
        (hasChanges || r.updated) rest

/-- `updateImportsInFile` (fileOps): read (cache-backed), rewrite in memory,
write once when anything changed, refresh the cache.  The whole body sits in a
`try`/`catch` returning `false`, so the result is always a boolean; `writeOk`
is the oracle for the fallibility of `fs.writeFile`. -/
def updateImportsInFile (fileMoveMap : List (String × String)) (writeOk : Bool)
    (currentFilePath : String) (imports : List ImportInfo) (st : SysState) :
    Bool × SysState × List Effect :=
  match readFileWithValidation fileMoveMap st currentFilePath with
  | none => (false, st, [])
  | some (content0, st1) =>
    match updateImportsLoop currentFilePath content0 false imports with
    | none => (false, st1, [])
    | some (hasChanges, fileContent) =>
      if hasChanges then
        if writeOk then
          (true,
           { files := mapSet st1.files currentFilePath fileContent,
             cache := mapSet st1.cache currentFilePath fileContent },
           [Effect.write currentFilePath fileContent])
        else (false, st1, [])
      else (false, st1, [])

/-- The rewrite loop of `updateImportsInMovedFile`. -/
def movedImportsLoop (fileMoveMap : List (String × String))
    (oldPath newPath : String) :
    String → Bool → List String → Option (Bool × String)
  | updatedContent, hasChanges, [] => some (hasChanges, updatedContent)
  | updatedContent, hasChanges, importPath :: rest =>
    match ImportUtils.handleMovingFileImportsUpdate fileMoveMap importPath oldPath
        newPath updatedContent with
    | none => none
    | some r =>
      movedImportsLoop fileMoveMap oldPath newPath
        (if r.updated then r.updatedFileContent else updatedContent)
        (hasChanges || r.updated) rest

/-- `updateImportsInMovedFile` (fileOps): rewrite the moved file's own
references and write the result.  The file is read directly from disk (not via
the cache) and the cache is not refreshed after the write; `scanMoved` is the
oracle for the Babel traversal collecting the relative/monorepo import
literals.  The body is wrapped in `try`/`catch`, so every failure leaves the
state unchanged. -/
def updateImportsInMovedFile (fileMoveMap : List (String × String))
    (scanMoved : String → List String) (oldPath newPath : String)
    (st : SysState) : SysState × List Effect :=
  match mapLookup st.files newPath with
  | none => (st, [])
  | some content =>
    let relativeImports := scanMoved content
    match movedImportsLoop fileMoveMap oldPath newPath content false relativeImports with
    | none => (st, [])
    | some (hasChanges, updatedContent) =>
      if hasChanges then
        ({ st with files := mapSet st.files newPath updatedContent },
         [Effect.write newPath updatedContent])
      else (st, [])

/-! ## Batch orchestrator (`moveFileAndUpdateImports` and helpers) -/

inductive RunOutcome
  | exited
  | completed
deriving DecidableEq, Repr

/-- `validateInputs`: the source must exist and the destination must not
already hold a file (the model has no directories; `mkdir` is a no-op). -/
def validateInputs (st : SysState) (oldPath newPath : String) : Bool :=
  mapHas st.files oldPath ∧ ¬ mapHas st.files newPath

/-- The precompute loop over `generateImportPathVariations`; the first thrown
error aborts the run (`none`). -/
def computeVariations (cfgCwd : String) :
    List (String × String) → Option (List (String × List String))
  | [] => some []
  | mv :: rest =>
    match generateImportPathVariations mv.1 cfgCwd with
    | none => none
    | some vs => (computeVariations cfgCwd rest).map (fun r => (mv.1, vs) :: r)

/-- Invert the per-move variation lists into the address-form index. -/
def buildInvertedIndex (cache : List (String × List String)) :
    List (String × String) :=
  cache.foldl (fun m e => e.2.foldl (fun m2 v => mapSet m2 v e.1) m) []

/-- `findDependencyImports` (scan one parsed file): keep the literals that
`matchesTarget` resolves to a moved file (`scanLiterals` is the Babel oracle;
source locations are not modelled). -/
def findDependencyImports (scanLiterals : String → List String)
    (fileMoveMap invertedIndex : List (String × String))
    (content currentFile : String) : List ImportInfo :=
  (scanLiterals content).filterMap (fun importPath =>
    match Types.matchesTarget fileMoveMap invertedIndex currentFile importPath with
    | some matched =>
      some { line := 0, originalLine := "", importPath := importPath,
             matchedText := "", matchedUpdateToFilePath := matched }
    | none => none)

/-- `analyzeImportsWithTracking`: scan every candidate file (per-file errors
are caught and skipped), keeping files with at least one matching import. -/
def analyzeImports (scanLiterals : String → List String)
    (fileMoveMap invertedIndex : List (String × String))
    (sourceFiles : List String) (st : SysState) :
    List (String × List ImportInfo) :=
  sourceFiles.filterMap (fun file =>
    match mapLookup st.files file with
    | none => none
    | some content =>
      let imports := findDependencyImports scanLiterals fileMoveMap invertedIndex
        content file
      if imports.isEmpty then none else some (file, imports))

/-- `batchUpdateImports`: update every analyzed file (the writes target
distinct files, so the parallel `Promise.all` is modelled sequentially). -/
def batchUpdateImports (fileMoveMap : List (String × String))
    (analysis : List (String × List ImportInfo)) (st : SysState) :
    SysState × List Effect :=
  analysis.foldl (fun acc e =>
    let r := updateImportsInFile fileMoveMap true e.1 e.2 acc.1
    (r.2.1, acc.2 ++ r.2.2)) (st, [])

/-- The per-move processing loop: in dry-run mode every move is skipped before
any physical operation; otherwise rename then rewrite the moved file's own
references, catching per-move errors and continuing. -/
def processMoves (fileMoveMap : List (String × String))
    (scanMoved : String → List String) (dryRun : Bool) :
    List (String × String) → SysState × List Effect → SysState × List Effect
  | [], acc => acc
  | mv :: rest, acc =>
    if dryRun then processMoves fileMoveMap scanMoved dryRun rest acc
    else
      match movePhysicalFile mv.1 mv.2 acc.1 with
      | none => processMoves fileMoveMap scanMoved dryRun rest acc
      | some (stA, effA) =>
        let r := updateImportsInMovedFile fileMoveMap scanMoved mv.1 mv.2 stA
        processMoves fileMoveMap scanMoved dryRun rest (r.1, acc.2 ++ effA ++ r.2)

/-- `moveFileAndUpdateImports` (batch orchestrator), from the expanded move
list onward: build the batch `fileMoveMap`, validate every move (exiting the
process on the first failure), build the address-form index, scan and update
every referencing file, then process the physical moves in order. -/
def moveFileAndUpdateImports (cfgCwd : String) (dryRun : Bool)
    (scanLiterals scanMoved : String → List String) (sourceFiles : List String)
    (expandedMoves : List (String × String)) (st : SysState) :
    RunOutcome × SysState × List Effect :=
  let fileMoves := expandedMoves.map (fun mv => (posixNormalize mv.1, posixNormalize mv.2))
  let fileMoveMap := mapOfEntries
    (fileMoves ++ fileMoves.map (fun mv => (removeExtension mv.1, removeExtension mv.2)))
  let normalizedMoves := expandedMoves.map (fun mv =>
    (posixResolve2In processCwd cfgCwd mv.1, posixResolve2In processCwd cfgCwd mv.2))
  if ¬ normalizedMoves.all (fun mv => validateInputs st mv.1 mv.2) then
    (RunOutcome.exited, st, [])
  else
    let srcFiles := sourceFiles.filter (fun f => ¬ mapHas fileMoveMap f)
    match computeVariations cfgCwd normalizedMoves with
    | none => (RunOutcome.exited, st, [])
    | some importPathCache =>
      let invertedIndex := buildInvertedIndex importPathCache
      let importAnalysis := analyzeImports scanLiterals fileMoveMap invertedIndex
        srcFiles st
      let (st1, effs1) := batchUpdateImports fileMoveMap importAnalysis st
      let (st2, effs2) := processMoves fileMoveMap scanMoved dryRun normalizedMoves
        (st1, [])
      (RunOutcome.completed, st2, effs1 ++ effs2)

/-! ## Definitions modelled from the specification (for comparison) -/

/-- Modelled from the spec: the Reference Index lookup contract of section
4.3 — check direct membership of the literal first; if absent and the literal
is relative-looking, resolve it against the containing file's directory to an
absolute path, strip its extension, and check again; otherwise no reference.
A hit is resolved to the moved file's new path through the batch move map as
in the code. -/
def specIndexLookup (fileMoveMap targetImportPaths : List (String × String))
    (currentFile importPath : String) : Option String :=
  match mapLookup targetImportPaths importPath with
  | some key => mapLookup fileMoveMap key
  | none =>
    if isRelativeImport importPath then
      let resolved := posixResolve2In processCwd (posixDirname currentFile) importPath
      let stripped := removeExtension resolved
      match mapLookup targetImportPaths stripped with
      | some key => mapLookup fileMoveMap key
      | none => none
    else none

/-- Modelled from the spec: resolving an address "through the pending batch"
(design notes) — follow the MoveMap chain to the latest destination of a file,
bounded by the batch size. -/
def specChainResolve (moveMap : List (String × String)) : Nat → String → String
  | 0, p => p
  | fuel + 1, p =>
    match mapLookup moveMap p with
    | some v => specChainResolve moveMap fuel v
    | none => p

/-! ## Helper lemmas -/

theorem mapLookup_cons_pos (e : String × String) (m : List (String × String)) (k : String)
    (h : e.1 = k) : mapLookup (e :: m) k = some e.2 := by
  simp [mapLookup, List.find?_cons_of_pos, h]

theorem mapLookup_cons_neg (e : String × String) (m : List (String × String)) (k : String)
    (h : ¬ e.1 = k) : mapLookup (e :: m) k = mapLookup m k := by
  simp only [mapLookup]
  rw [List.find?_cons_of_neg _ (by simp [h])]

theorem mapLookup_map_set (m : List (String × String)) (k v : String)
    (h : mapHas m k = true) :
    mapLookup (m.map (fun e => if e.1 = k then (k, v) else e)) k = some v := by
  induction m with
  | nil => simp [mapHas, mapLookup] at h
  | cons e rest ih =>
    by_cases he : e.1 = k
    · simp only [List.map_cons, if_pos he]
      exact mapLookup_cons_pos _ _ _ rfl
    · simp only [List.map_cons, if_neg he]
      rw [mapLookup_cons_neg _ _ _ he]
      apply ih
      unfold mapHas at h ⊢
      rw [mapLookup_cons_neg _ _ _ he] at h
      exact h

theorem mapLookup_append_absent (m : List (String × String)) (k v : String)
    (h : mapLookup m k = none) : mapLookup (m ++ [(k, v)]) k = some v := by
  induction m with
  | nil => simp [mapLookup, List.find?]
  | cons e rest ih =>
    by_cases he : e.1 = k
    · rw [mapLookup_cons_pos _ _ _ he] at h
      cases h
    · rw [mapLookup_cons_neg _ _ _ he] at h
      rw [List.cons_append, mapLookup_cons_neg _ _ _ he]
      exact ih h

theorem mapLookup_mapSet_self (m : List (String × String)) (k v : String) :
    mapLookup (mapSet m k v) k = some v := by
  unfold mapSet
  by_cases h : mapHas m k = true
  · rw [if_pos h]
    exact mapLookup_map_set m k v h
  · rw [if_neg h]
    apply mapLookup_append_absent
    unfold mapHas at h
    cases hl : mapLookup m k with
    | none => rfl
    | some x => rw [hl] at h; simp at h

theorem matchPkgShortAfter_ne_packages (marker cs : List Char) (s : String)
    (hm : '/' ∈ marker) : matchPkgShortAfter marker cs = some s → s ≠ "packages" := by
  intro h
  unfold matchPkgShortAfter at h
  split at h
  · simp only [ne_eq] at h
    split at h
    · injection h with h
      subst h
      intro heq
      have hmem : '/' ∈ ("packages" : String).data := by
        rw [← heq]
        exact List.mem_append.mpr (Or.inl hm)
      revert hmem
      decide
    · cases h
  · cases h

theorem matchPkgShort_ne_packages (cs : List Char) (s : String) :
    matchPkgShort cs = some s → s ≠ "packages" := by
  induction cs with
  | nil => intro h; simp [matchPkgShort] at h
  | cons c rest ih =>
    intro h
    rw [matchPkgShort] at h
    cases hh : matchPkgShortHere (c :: rest) with
    | some r =>
      rw [hh] at h
      injection h with h
      subst h
      unfold matchPkgShortHere at hh
      cases h1 : matchPkgShortAfter "packages/".data (c :: rest) with
      | some r1 =>
        rw [h1] at hh
        injection hh with hh
        subst hh
        exact matchPkgShortAfter_ne_packages _ _ _ (by decide) h1
      | none =>
        rw [h1] at hh
        exact matchPkgShortAfter_ne_packages _ _ _ (by decide) hh
    | none =>
      rw [hh] at h
      exact ih h

theorem getModuleType_ne_packages (p : String) (r : ModuleTypeResult) :
    getModuleType p = some r → r.moduleType ≠ "packages" := by
  intro h
  unfold getModuleType at h
  simp only [] at h
  by_cases hmono : isMonorepoPackageImport (normalizePath p) = true
  · rw [if_pos hmono] at h
    cases hms : matchAtMs (normalizePath p).data with
    | some name =>
      rw [hms] at h
      injection h with h
      subst h
      intro heq
      simp only [] at heq
      have hmem : '/' ∈ ("packages" : String).data := by
        rw [← heq]
        show '/' ∈ ("packages/".data ++ name)
        exact List.mem_append.mpr (Or.inl (by decide))
      revert hmem
      decide
    | none =>
      rw [hms] at h
      injection h with h
      subst h
      decide
  · rw [if_neg hmono] at h
    cases hpk : matchPkgShort (normalizePath p).data with
    | some pn =>
      rw [hpk] at h
      injection h with h
      subst h
      exact matchPkgShort_ne_packages _ _ hpk
    | none => rw [hpk] at h; cases h

theorem fileMoveDirection_cases (oldPath newPath : String) (d : FileDirection) :
    fileMoveDirection oldPath newPath = some d →
    d = FileDirection.self ∨ d = FileDirection.betweenPackages := by
  intro h
  cases ho : getModuleType oldPath with
  | none => simp [fileMoveDirection, ho] at h
  | some o =>
    cases hn : getModuleType newPath with
    | none => simp [fileMoveDirection, ho, hn] at h
    | some n =>
      simp only [fileMoveDirection, ho, hn] at h
      split at h
      · injection h with h; exact Or.inl h.symm
      · split at h
        · rename_i hcond
          exact absurd hcond.1 (getModuleType_ne_packages _ _ ho)
        · injection h with h; exact Or.inr h.symm


theorem updateImportsInFile_cases (fmm : List (String × String)) (wk : Bool)
    (cf : String) (imps : List ImportInfo) (st : SysState) :
    (((updateImportsInFile fmm wk cf imps st).1 = false →
       (updateImportsInFile fmm wk cf imps st).2.2 = []) ∧
     ((updateImportsInFile fmm wk cf imps st).1 = true →
       ∃ c, (updateImportsInFile fmm wk cf imps st).2.2 = [Effect.write cf c] ∧
         mapLookup (updateImportsInFile fmm wk cf imps st).2.1.files cf = some c)) := by
  unfold updateImportsInFile
  cases hr : readFileWithValidation fmm st cf with
  | none => simp
  | some pr =>
    obtain ⟨content0, st1⟩ := pr
    cases hl : updateImportsLoop cf content0 false imps with
    | none => simp [hl]
    | some pair =>
      obtain ⟨hasChanges, fileContent⟩ := pair
      simp only [hl]
      cases hasChanges with
      | false => simp
      | true =>
        cases wk with
        | false => simp
        | true =>
          refine ⟨fun h => by simp at h, fun _ => ⟨fileContent, rfl, ?_⟩⟩
          exact mapLookup_mapSet_self _ _ _

theorem updateImportsInFile_no_rename (fmm : List (String × String)) (wk : Bool)
    (cf : String) (imps : List ImportInfo) (st : SysState) :
    ((updateImportsInFile fmm wk cf imps st).2.2).filter isRenameEffect = [] := by
  cases hb : (updateImportsInFile fmm wk cf imps st).1 with
  | false => rw [(updateImportsInFile_cases fmm wk cf imps st).1 hb]; rfl
  | true =>
    obtain ⟨c, hc, -⟩ := (updateImportsInFile_cases fmm wk cf imps st).2 hb
    rw [hc]
    rfl

theorem batchUpdateImports_fold_no_rename (fmm : List (String × String))
    (analysis : List (String × List ImportInfo)) :
    ∀ acc : SysState × List Effect, acc.2.filter isRenameEffect = [] →
      ((analysis.foldl (fun acc e =>
          let r := updateImportsInFile fmm true e.1 e.2 acc.1
          (r.2.1, acc.2 ++ r.2.2)) acc).2).filter isRenameEffect = [] := by
  induction analysis with
  | nil => intro acc h; exact h
  | cons e rest ih =>
    intro acc h
    simp only [List.foldl_cons]
    apply ih
    simp only [List.filter_append, h, List.nil_append]
    exact updateImportsInFile_no_rename _ _ _ _ _

theorem batchUpdateImports_no_rename (fmm : List (String × String))
    (analysis : List (String × List ImportInfo)) (st : SysState) :
    ((batchUpdateImports fmm analysis st).2).filter isRenameEffect = [] := by
  exact batchUpdateImports_fold_no_rename fmm analysis (st, []) rfl

theorem processMoves_dryRun_id (fmm : List (String × String))
    (sm : String → List String) (l : List (String × String))
    (acc : SysState × List Effect) : processMoves fmm sm true l acc = acc := by
  induction l generalizing acc with
  | nil => rfl
  | cons mv rest ih => rw [processMoves]; simp only [if_pos rfl]; exact ih acc

theorem moveFileAndUpdateImports_dryRun_no_rename (cfgCwd : String)
    (sL sM : String → List String) (sourceFiles : List String)
    (expandedMoves : List (String × String)) (st : SysState) :
    ((moveFileAndUpdateImports cfgCwd true sL sM sourceFiles expandedMoves st).2.2).filter
      isRenameEffect = [] := by
  unfold moveFileAndUpdateImports
  simp only [processMoves_dryRun_id]
  split
  · rfl
  · split
    · rfl
    · simp only [List.append_nil]
      exact batchUpdateImports_no_rename _ _ _

theorem moveFileAndUpdateImports_invalid_exits (cfgCwd : String) (dryRun : Bool)
    (sL sM : String → List String) (sourceFiles : List String)
    (expandedMoves : List (String × String)) (st : SysState)
    (h : (expandedMoves.map (fun mv =>
        (posixResolve2In processCwd cfgCwd mv.1, posixResolve2In processCwd cfgCwd mv.2))).all
        (fun mv => validateInputs st mv.1 mv.2) = false) :
    moveFileAndUpdateImports cfgCwd dryRun sL sM sourceFiles expandedMoves st =
      (RunOutcome.exited, st, []) := by
  unfold moveFileAndUpdateImports
  simp only [h]
  rfl

theorem generateImportPathVariations_propagates (targetPath cfgCwd : String)
    (h : getMsImportPath (posixResolveIn processCwd targetPath) = none) :
    generateImportPathVariations targetPath cfgCwd = none := by
  unfold generateImportPathVariations
  simp only [h]

theorem matchesTarget_direct_hit (fmm tip : List (String × String))
    (cf lit k np : String) (h1 : mapLookup tip lit = some k)
    (h2 : mapLookup fmm k = some np) (h3 : np ≠ "") :
    Types.matchesTarget fmm tip cf lit = some np := by
  unfold Types.matchesTarget
  simp only [mapHas, h1, Option.isSome_some, if_pos, Option.getD_some, h2]
  simp [h3]

theorem matchesTarget_resolved_hit (fmm tip : List (String × String))
    (cf lit k np : String) (h0 : mapLookup tip lit = none)
    (h1 : mapLookup tip (normalizePath (resolveImportPath cf lit)) = some k)
    (h2 : mapLookup fmm k = some np) (h3 : np ≠ "") :
    Types.matchesTarget fmm tip cf lit = some np := by
  unfold Types.matchesTarget
  simp only [mapHas, h0, Option.isSome_none, h1, Option.isSome_some, Option.getD_some, h2]
  simp [h3]

theorem matchesTarget_miss (fmm tip : List (String × String)) (cf lit : String)
    (h0 : mapLookup tip lit = none)
    (h1 : mapLookup tip (normalizePath (resolveImportPath cf lit)) = none) :
    Types.matchesTarget fmm tip cf lit = none := by
  unfold Types.matchesTarget
  simp [mapHas, h0, h1]

theorem updateImportsInFile_read_fail (fmm : List (String × String)) (wk : Bool)
    (cf : String) (imports : List ImportInfo) (st : SysState)
    (h : readFileWithValidation fmm st cf = none) :
    updateImportsInFile fmm wk cf imports st = (false, st, []) := by
  unfold updateImportsInFile
  rw [h]

/-! ## Claim theorems -/

/-- C1: the claim says a package/application pair (either order) yields the
`UnsupportedBoundary` direction and no edit; in the code this direction can
never arise.  `getModuleType` always returns a module type of the form
`packages/<name>` or `apps/<name>`, never the bare `"packages"` that the
boundary guard compares against, so every classified pair is `self` or
`betweenPackages`; a concrete package→app pair (and the reverse) is classified
`betweenPackages` and the Path Rewriter edits the reference to the aliased
form instead of skipping it; a path outside every module root makes
`getModuleType` throw (`none`) instead of yielding a defensive boundary
direction. -/
theorem c1_unsupported_boundary_never_produced :
    (∀ oldPath newPath d, fileMoveDirection oldPath newPath = some d →
      d = FileDirection.self ∨ d = FileDirection.betweenPackages) ∧
    fileMoveDirection "packages/main/src/a.ts" "apps/shell/src/b.ts" =
      some FileDirection.betweenPackages ∧
    fileMoveDirection "apps/shell/src/b.ts" "packages/main/src/a.ts" =
      some FileDirection.betweenPackages ∧
    getModuleType "/tmp/other/foo.ts" = none ∧
    Types.handlePackageImportsUpdate "./b" "packages/main/src/a.ts" "apps/shell/src/b.ts"
        ("from " ++ quoted "./b") =
      some { updated := true, updatedFileContent := "from " ++ quoted "@ms/shell/lib/b",
             updatedImportPath := "@ms/shell/lib/b" } :=
  ⟨fileMoveDirection_cases, by decide, by decide, by decide, by decide⟩

/-- C1 witness: the universal part of the theorem applied at the concrete
package→application pair. -/
theorem c1_unsupported_boundary_never_produced_witness :
    FileDirection.betweenPackages = FileDirection.self ∨
    FileDirection.betweenPackages = FileDirection.betweenPackages :=
  c1_unsupported_boundary_never_produced.1 "packages/main/src/a.ts" "apps/shell/src/b.ts"
    FileDirection.betweenPackages (by decide)

/-- C2 counterexample: with the computed new literal equal to the old literal
(`./helper`, since the moved file lands in the referencing file's own
directory), the substitution still reports `updated = true` and
`updateImportsInFile` writes the file — the claim's "no edit is made and no
file write occurs" fails. -/
theorem c2_idempotence_counterexample :
    Types.handlePackageImportsUpdate "./helper" "packages/main/src/a.ts"
        "packages/main/src/helper.ts" ("from " ++ quoted "./helper") =
      some { updated := true, updatedFileContent := "from " ++ quoted "./helper",
             updatedImportPath := "./helper" } ∧
    updateImportsInFile [] true "packages/main/src/a.ts"
        [{ line := 0, originalLine := "", importPath := "./helper", matchedText := "",
           matchedUpdateToFilePath := "packages/main/src/helper.ts" }]
        { files := [("packages/main/src/a.ts", "from " ++ quoted "./helper")], cache := [] } =
      (true,
       { files := [("packages/main/src/a.ts", "from " ++ quoted "./helper")],
         cache := [("packages/main/src/a.ts", "from " ++ quoted "./helper")] },
       [Effect.write "packages/main/src/a.ts" ("from " ++ quoted "./helper")]) :=
  ⟨by decide, by decide⟩

/-- C2 (amended): the substitution applies only the first matching statement
shape per call, so when the same literal occurs in both a `from` import and a
`require` call, the first run rewrites only the `from` occurrence and a second
run against the already-updated content reports a further edit (the `require`
occurrence); when the literal occurred under a single shape and the new
literal differs, a second run reports no edit and the content is a fixpoint;
when the computed new literal equals the old one the substitution still
reports an update with byte-identical content (and the file is written). -/
theorem c2_idempotence_amended :
    Types.handlePackageImportsUpdate "./old" "packages/main/src/a.ts"
        "packages/main/src/sub/x.ts"
        ("from " ++ quoted "./old" ++ " require(" ++ quoted "./old" ++ ")") =
      some { updated := true,
             updatedFileContent :=
               "from " ++ quoted "./sub/x" ++ " require(" ++ quoted "./old" ++ ")",
             updatedImportPath := "./sub/x" } ∧
    Types.handlePackageImportsUpdate "./old" "packages/main/src/a.ts"
        "packages/main/src/sub/x.ts"
        ("from " ++ quoted "./sub/x" ++ " require(" ++ quoted "./old" ++ ")") =
      some { updated := true,
             updatedFileContent :=
               "from " ++ quoted "./sub/x" ++ " require(" ++ quoted "./sub/x" ++ ")",
             updatedImportPath := "./sub/x" } ∧
    Types.handlePackageImportsUpdate "./old" "packages/main/src/a.ts"
        "packages/main/src/sub/x.ts" ("from " ++ quoted "./sub/x") =
      some { updated := false, updatedFileContent := "from " ++ quoted "./sub/x",
             updatedImportPath := "./sub/x" } ∧
    Types.handlePackageImportsUpdate "./helper" "packages/main/src/a.ts"
        "packages/main/src/helper.ts" ("from " ++ quoted "./helper") =
      some { updated := true, updatedFileContent := "from " ++ quoted "./helper",
             updatedImportPath := "./helper" } :=
  ⟨by decide, by decide, by decide, by decide⟩

/-- C3: dry-run mode suppresses every rename (first part, for all inputs) but
does not suppress the writes of the referencing files: `batchUpdateImports`
runs before the per-move dry-run guard and `updateImportsInFile` never
consults the flag, so a dry-run batch still writes the rewritten referencing
file (second part, concrete run whose only effect is that write). -/
theorem c3_dry_run_still_writes :
    (∀ (cfgCwd : String) (sL sM : String → List String) (sourceFiles : List String)
        (moves : List (String × String)) (st : SysState),
      ((moveFileAndUpdateImports cfgCwd true sL sM sourceFiles moves st).2.2).filter
        isRenameEffect = []) ∧
    moveFileAndUpdateImports "/r" true (fun _ => ["./a"]) (fun _ => [])
        ["/r/packages/p/src/b.ts"]
        [("/r/packages/p/src/a.ts", "/r/packages/p/src/s/a.ts")]
        { files := [("/r/packages/p/src/a.ts", "export const a = 1"),
                    ("/r/packages/p/src/b.ts", "from " ++ quoted "./a")], cache := [] } =
      (RunOutcome.completed,
       { files := [("/r/packages/p/src/a.ts", "export const a = 1"),
                   ("/r/packages/p/src/b.ts", "from " ++ quoted "./s/a")],
         cache := [("/r/packages/p/src/b.ts", "from " ++ quoted "./s/a")] },
       [Effect.write "/r/packages/p/src/b.ts" ("from " ++ quoted "./s/a")]) :=
  ⟨moveFileAndUpdateImports_dryRun_no_rename, by decide⟩

/-- C4 counterexample: a batch whose first move fails validation (missing
source) exits with no effect at all — the remaining valid move is not
processed, although the same valid move on its own completes with a write and
a rename.  This refutes "batch processing continues with the remaining
moves". -/
theorem c4_validation_abort_counterexample :
    moveFileAndUpdateImports "/r" false (fun _ => ["./a"]) (fun _ => [])
        ["/r/packages/p/src/b.ts"]
        [("/r/packages/p/src/missing.ts", "/r/packages/p/src/s/missing.ts"),
         ("/r/packages/p/src/a.ts", "/r/packages/p/src/s/a.ts")]
        { files := [("/r/packages/p/src/a.ts", "export const a = 1"),
                    ("/r/packages/p/src/b.ts", "from " ++ quoted "./a")], cache := [] } =
      (RunOutcome.exited,
       { files := [("/r/packages/p/src/a.ts", "export const a = 1"),
                   ("/r/packages/p/src/b.ts", "from " ++ quoted "./a")], cache := [] },
       []) ∧
    moveFileAndUpdateImports "/r" false (fun _ => ["./a"]) (fun _ => [])
        ["/r/packages/p/src/b.ts"]
        [("/r/packages/p/src/a.ts", "/r/packages/p/src/s/a.ts")]
        { files := [("/r/packages/p/src/a.ts", "export const a = 1"),
                    ("/r/packages/p/src/b.ts", "from " ++ quoted "./a")], cache := [] } =
      (RunOutcome.completed,
       { files := [("/r/packages/p/src/b.ts", "from " ++ quoted "./s/a"),
                   ("/r/packages/p/src/s/a.ts", "export const a = 1")],
         cache := [("/r/packages/p/src/b.ts", "from " ++ quoted "./s/a")] },
       [Effect.write "/r/packages/p/src/b.ts" ("from " ++ quoted "./s/a"),
        Effect.rename "/r/packages/p/src/a.ts" "/r/packages/p/src/s/a.ts"]) :=
  ⟨by decide, by decide⟩

/-- C4 (amended): a validation failure on any move of the batch makes the run
exit before any write or rename (first part, for all inputs); it is errors in
the apply phase — here a rename whose source is gone because an earlier move
of the batch already moved it — that are fatal only to the specific move, with
the batch continuing through the remaining moves (second part, concrete run
applying moves 1 and 3 while move 2 fails). -/
theorem c4_validation_abort_amended :
    (∀ (cfgCwd : String) (dryRun : Bool) (sL sM : String → List String)
        (sourceFiles : List String) (moves : List (String × String)) (st : SysState),
      ((moves.map (fun mv =>
          (posixResolve2In processCwd cfgCwd mv.1, posixResolve2In processCwd cfgCwd mv.2))).all
        (fun mv => validateInputs st mv.1 mv.2)) = false →
      moveFileAndUpdateImports cfgCwd dryRun sL sM sourceFiles moves st =
        (RunOutcome.exited, st, [])) ∧
    moveFileAndUpdateImports "/r" false (fun _ => []) (fun _ => []) []
        [("/r/packages/p/src/a.ts", "/r/packages/p/src/b2.ts"),
         ("/r/packages/p/src/a.ts", "/r/packages/p/src/c2.ts"),
         ("/r/packages/p/src/d.ts", "/r/packages/p/src/e2.ts")]
        { files := [("/r/packages/p/src/a.ts", "x"), ("/r/packages/p/src/d.ts", "y")],
          cache := [] } =
      (RunOutcome.completed,
       { files := [("/r/packages/p/src/b2.ts", "x"), ("/r/packages/p/src/e2.ts", "y")],
         cache := [] },
       [Effect.rename "/r/packages/p/src/a.ts" "/r/packages/p/src/b2.ts",
        Effect.rename "/r/packages/p/src/d.ts" "/r/packages/p/src/e2.ts"]) :=
  ⟨moveFileAndUpdateImports_invalid_exits, by decide⟩

/-- C4 witness: the universal part applied to a batch whose single move has a
missing source. -/
theorem c4_validation_abort_amended_witness :
    moveFileAndUpdateImports "/r" false (fun _ => []) (fun _ => []) []
        [("/r/x.ts", "/r/y.ts")] { files := [], cache := [] } =
      (RunOutcome.exited, { files := [], cache := [] }, []) :=
  c4_validation_abort_amended.1 "/r" false (fun _ => []) (fun _ => []) []
    [("/r/x.ts", "/r/y.ts")] { files := [], cache := [] } (by decide)

/-- C5: for the Self-direction example of the spec, the computed literal for
any file content is `../shared/helper` and the quote-preserving substitution
rewrites the example content accordingly; the `.png` asset keeps its extension
while the `.tsx` source has it stripped; a computed path with neither `./` nor
`../` (a file moved into a subdirectory of the referencing file's directory)
is prefixed with `./`. -/
theorem c5_self_relative_rewrite :
    (∀ content : String, ∃ r,
      ImportUtils.handlePackageImportsUpdate "./utils/helper"
          "packages/main/src/components/Button.ts" "packages/main/src/shared/helper.ts"
          content = some r ∧
        r.updatedImportPath = "../shared/helper") ∧
    ImportUtils.handlePackageImportsUpdate "./utils/helper"
        "packages/main/src/components/Button.ts" "packages/main/src/shared/helper.ts"
        ("import helper from " ++ quoted "./utils/helper" ++ ";") =
      some { updated := true,
             updatedFileContent := "import helper from " ++ quoted "../shared/helper" ++ ";",
             updatedImportPath := "../shared/helper" } ∧
    getRelativeImportPath "packages/main/src/components/Button.ts"
        "packages/main/src/assets/logo.png" = "../assets/logo.png" ∧
    getRelativeImportPath "packages/main/src/components/Button.ts"
        "packages/main/src/components/Panel.tsx" = "./Panel" ∧
    (∀ content : String, ∃ r,
      ImportUtils.handlePackageImportsUpdate "./Panel"
          "packages/main/src/components/Button.ts"
          "packages/main/src/components/sub/Panel.tsx" content = some r ∧
        r.updatedImportPath = "./sub/Panel") :=
  ⟨fun _ => ⟨_, rfl, rfl⟩, by decide, by decide, by decide, fun _ => ⟨_, rfl, rfl⟩⟩

/-- C6 counterexample: for a file outside every recognized module root the
Address Form Generator does not return the remaining forms — `getMsImportPath`
throws and `generateImportPathVariations` propagates the error (`none`). -/
theorem c6_alias_failure_counterexample :
    getMsImportPath "/tmp/foo.ts" = none ∧
    generateImportPathVariations "/tmp/foo.ts" "/w" = none :=
  ⟨by decide, by decide⟩

/-- C6 (amended): whenever the module-root match fails on the resolved target
path, `getMsImportPath` throws and the Address Form Generator propagates the
error instead of omitting the aliased form and returning the rest. -/
theorem c6_alias_failure_amended :
    ∀ targetPath cfgCwd : String,
      getMsImportPath (posixResolveIn processCwd targetPath) = none →
      generateImportPathVariations targetPath cfgCwd = none :=
  generateImportPathVariations_propagates

/-- C6 witness: the amended theorem applied to a path outside the module
roots. -/
theorem c6_alias_failure_amended_witness :
    generateImportPathVariations "/tmp/bar.ts" "/w" = none :=
  c6_alias_failure_amended "/tmp/bar.ts" "/w" (by decide)

/-- C7 counterexample: the index holds only the extension-stripped form
`/a/b/helper`; the claim's lookup (resolve, strip extension, check) finds the
literal `./helper.ts`, but the code's second check keeps the extension and
misses it; conversely a non-relative literal that differs from an index key
only by a duplicate slash is found by the code's second check (which
normalizes every literal) while the claim restricts the second check to
relative-looking literals. -/
theorem c7_lookup_counterexample :
    Types.matchesTarget [("/a/b/helper.ts", "/a/b/c2/helper.ts")]
        [("/a/b/helper", "/a/b/helper.ts")] "/a/b/c.ts" "./helper.ts" = none ∧
    specIndexLookup [("/a/b/helper.ts", "/a/b/c2/helper.ts")]
        [("/a/b/helper", "/a/b/helper.ts")] "/a/b/c.ts" "./helper.ts" =
      some "/a/b/c2/helper.ts" ∧
    Types.matchesTarget [("/a/b/helper.ts", "/a/b/c2/helper.ts")]
        [("packages/p/src/a.ts", "/a/b/helper.ts")] "/q/f.ts" "packages//p/src/a.ts" =
      some "/a/b/c2/helper.ts" ∧
    specIndexLookup [("/a/b/helper.ts", "/a/b/c2/helper.ts")]
        [("packages/p/src/a.ts", "/a/b/helper.ts")] "/q/f.ts" "packages//p/src/a.ts" =
      none :=
  ⟨by decide, by decide, by decide, by decide⟩

/-- C7 (amended): the lookup first checks direct membership; if absent it
checks the resolved form — relative-looking literals resolved against the
containing file's directory, other literals merely normalized — with the
extension kept; a literal found by neither check resolves to no moved file and
is left untouched. -/
theorem c7_lookup_amended :
    (∀ (fmm tip : List (String × String)) (cf lit k np : String),
      mapLookup tip lit = some k → mapLookup fmm k = some np → np ≠ "" →
      Types.matchesTarget fmm tip cf lit = some np) ∧
    (∀ (fmm tip : List (String × String)) (cf lit k np : String),
      mapLookup tip lit = none →
      mapLookup tip (normalizePath (resolveImportPath cf lit)) = some k →
      mapLookup fmm k = some np → np ≠ "" →
      Types.matchesTarget fmm tip cf lit = some np) ∧
    (∀ (fmm tip : List (String × String)) (cf lit : String),
      mapLookup tip lit = none →
      mapLookup tip (normalizePath (resolveImportPath cf lit)) = none →
      Types.matchesTarget fmm tip cf lit = none) :=
  ⟨matchesTarget_direct_hit, matchesTarget_resolved_hit, matchesTarget_miss⟩

/-- C7 witness: the direct-membership part applied to a concrete aliased
literal. -/
theorem c7_lookup_amended_witness :
    Types.matchesTarget [("/r/old.ts", "/r/new.ts")] [("@ms/p/lib/x", "/r/old.ts")]
        "/q/f.ts" "@ms/p/lib/x" = some "/r/new.ts" :=
  c7_lookup_amended.1 [("/r/old.ts", "/r/new.ts")] [("@ms/p/lib/x", "/r/old.ts")]
    "/q/f.ts" "@ms/p/lib/x" "/r/old.ts" "/r/new.ts" (by decide) (by decide) (by decide)

/-- C8 counterexample: for the chained batch a→sub/a, sub/a→sub2/a the batch
MoveMap (built exactly as the orchestrator builds it) records only single
hops; a moved file importing `./a` is rewritten to `../sub/a`, the
intermediate location, whereas following the chain as the claim requires would
end at `sub2` and yield `../sub2/a`. -/
theorem c8_chain_counterexample :
    mapOfEntries
        ([("/r/packages/p/src/a.ts", "/r/packages/p/src/sub/a.ts"),
          ("/r/packages/p/src/sub/a.ts", "/r/packages/p/src/sub2/a.ts")] ++
         [("/r/packages/p/src/a.ts", "/r/packages/p/src/sub/a.ts"),
          ("/r/packages/p/src/sub/a.ts", "/r/packages/p/src/sub2/a.ts")].map
           (fun mv => (removeExtension mv.1, removeExtension mv.2))) =
      [("/r/packages/p/src/a.ts", "/r/packages/p/src/sub/a.ts"),
       ("/r/packages/p/src/sub/a.ts", "/r/packages/p/src/sub2/a.ts"),
       ("/r/packages/p/src/a", "/r/packages/p/src/sub/a"),
       ("/r/packages/p/src/sub/a", "/r/packages/p/src/sub2/a")] ∧
    ImportUtils.handleMovingFileImportsUpdate
        [("/r/packages/p/src/a.ts", "/r/packages/p/src/sub/a.ts"),
         ("/r/packages/p/src/sub/a.ts", "/r/packages/p/src/sub2/a.ts"),
         ("/r/packages/p/src/a", "/r/packages/p/src/sub/a"),
         ("/r/packages/p/src/sub/a", "/r/packages/p/src/sub2/a")]
        "./a" "/r/packages/p/src/f.ts" "/r/packages/p/src/g/f.ts"
        ("from " ++ quoted "./a") =
      some { updated := true, updatedFileContent := "from " ++ quoted "../sub/a",
             updatedImportPath := "../sub/a" } ∧
    specChainResolve
        [("/r/packages/p/src/a.ts", "/r/packages/p/src/sub/a.ts"),
         ("/r/packages/p/src/sub/a.ts", "/r/packages/p/src/sub2/a.ts"),
         ("/r/packages/p/src/a", "/r/packages/p/src/sub/a"),
         ("/r/packages/p/src/sub/a", "/r/packages/p/src/sub2/a")] 4
        "/r/packages/p/src/a" = "/r/packages/p/src/sub2/a" ∧
    getRelativeImportPath "/r/packages/p/src/g/f.ts" "/r/packages/p/src/sub2/a" =
      "../sub2/a" :=
  ⟨by decide, by decide, by decide, by decide⟩

/-- C8 (amended): the rewrite consults the MoveMap by a single lookup, so for
every file content the moved file's `./a` reference is rewritten to the
destination recorded for its pre-batch path (`../sub/a`), which is the final
location only when the target moved at most once; a chain of moves is not
followed. -/
theorem c8_single_hop_amended :
    ∀ content : String, ∃ r,
      ImportUtils.handleMovingFileImportsUpdate
          [("/r/packages/p/src/a.ts", "/r/packages/p/src/sub/a.ts"),
           ("/r/packages/p/src/sub/a.ts", "/r/packages/p/src/sub2/a.ts"),
           ("/r/packages/p/src/a", "/r/packages/p/src/sub/a"),
           ("/r/packages/p/src/sub/a", "/r/packages/p/src/sub2/a")]
          "./a" "/r/packages/p/src/f.ts" "/r/packages/p/src/g/f.ts" content = some r ∧
        r.updatedImportPath = "../sub/a" :=
  fun _ => ⟨_, rfl, rfl⟩

/-- C9: the physical move re-keys the cache entry (first part), but rewriting
the moved file's own references writes the new content to disk without
refreshing the cache (second part), so a subsequent in-batch cache-backed read
of the moved file returns the pre-rewrite content while the file on disk holds
the rewritten content (third and fourth parts) — the claim that such reads
observe the latest content fails on the code. -/
theorem c9_moved_cache_stale :
    movePhysicalFile "/r/packages/p/src/m.ts" "/r/packages/p/src/s/m.ts"
        { files := [("/r/packages/p/src/m.ts", "from " ++ quoted "./a")],
          cache := [("/r/packages/p/src/m.ts", "from " ++ quoted "./a")] } =
      some ({ files := [("/r/packages/p/src/s/m.ts", "from " ++ quoted "./a")],
              cache := [("/r/packages/p/src/s/m.ts", "from " ++ quoted "./a")] },
            [Effect.rename "/r/packages/p/src/m.ts" "/r/packages/p/src/s/m.ts"]) ∧
    updateImportsInMovedFile
        [("/r/packages/p/src/m.ts", "/r/packages/p/src/s/m.ts"),
         ("/r/packages/p/src/m", "/r/packages/p/src/s/m")]
        (fun _ => ["./a"]) "/r/packages/p/src/m.ts" "/r/packages/p/src/s/m.ts"
        { files := [("/r/packages/p/src/s/m.ts", "from " ++ quoted "./a")],
          cache := [("/r/packages/p/src/s/m.ts", "from " ++ quoted "./a")] } =
      ({ files := [("/r/packages/p/src/s/m.ts", "from " ++ quoted "../a")],
         cache := [("/r/packages/p/src/s/m.ts", "from " ++ quoted "./a")] },
       [Effect.write "/r/packages/p/src/s/m.ts" ("from " ++ quoted "../a")]) ∧
    readFileWithValidation
        [("/r/packages/p/src/m.ts", "/r/packages/p/src/s/m.ts"),
         ("/r/packages/p/src/m", "/r/packages/p/src/s/m")]
        { files := [("/r/packages/p/src/s/m.ts", "from " ++ quoted "../a")],
          cache := [("/r/packages/p/src/s/m.ts", "from " ++ quoted "./a")] }
        "/r/packages/p/src/s/m.ts" =
      some ("from " ++ quoted "./a",
            { files := [("/r/packages/p/src/s/m.ts", "from " ++ quoted "../a")],
              cache := [("/r/packages/p/src/s/m.ts", "from " ++ quoted "./a")] }) ∧
    mapLookup [("/r/packages/p/src/s/m.ts", "from " ++ quoted "../a")]
        "/r/packages/p/src/s/m.ts" = some ("from " ++ quoted "../a") :=
  ⟨by decide, by decide, by decide, by decide⟩

/-- C10: `updateImportsInFile` never rejects — a read failure is caught and
surfaces as `(false, unchanged state, no effects)`; whenever the call returns
`false` no successful write was performed (empty effect list); and a `true`
result corresponds to exactly one successful write of the rewritten content,
which the final state's file map holds. -/
theorem c10_update_imports_never_rejects :
    ∀ (fmm : List (String × String)) (wk : Bool) (cf : String)
      (imports : List ImportInfo) (st : SysState),
      (readFileWithValidation fmm st cf = none →
        updateImportsInFile fmm wk cf imports st = (false, st, [])) ∧
      ((updateImportsInFile fmm wk cf imports st).1 = false →
        (updateImportsInFile fmm wk cf imports st).2.2 = []) ∧
      ((updateImportsInFile fmm wk cf imports st).1 = true →
        ∃ c, (updateImportsInFile fmm wk cf imports st).2.2 = [Effect.write cf c] ∧
          mapLookup (updateImportsInFile fmm wk cf imports st).2.1.files cf = some c) :=
  fun fmm wk cf imports st =>
    ⟨updateImportsInFile_read_fail fmm wk cf imports st,
     (updateImportsInFile_cases fmm wk cf imports st).1,
     (updateImportsInFile_cases fmm wk cf imports st).2⟩

/-- C10 witness: the read-failure part applied to an empty file system. -/
theorem c10_update_imports_never_rejects_witness :
    updateImportsInFile [] true "/r/f.ts" [] { files := [], cache := [] } =
      (false, { files := [], cache := [] }, []) :=
  (c10_update_imports_never_rejects [] true "/r/f.ts" [] { files := [], cache := [] }).1
    (by decide)
